import Mathlib

/-!
Verification of the generic data-table engine of the crosspost repository
(`src/components/Table.tsx`, the `Table<T extends TableData>` React component).

The embedding below transcribes the component's pure logic:
the loading / error / empty / populated rendering priority, the row-id
resolver `getRowId`, the column-configuration flags, the cell-level click
isolation for checkbox columns, and — for the state machinery delegated to
`@tanstack/react-table`, whose implementation is not part of this
repository's sources — models written from the specification (each such
definition is marked `Modelled from the spec:` in its doc comment).

Records are JS objects with an optional `id : string | number` plus other
fields; cell values are kept as strings, which is faithful for everything
the claims quantify over (identity, ordering keys are separate).
-/

namespace Crosspost

/-- Identifier value of a record, from the `TableData` interface:
`id?: string | number`. -/
inductive TableId
| str (s : String)
| num (n : Int)
deriving DecidableEq, Repr

/-- JavaScript `toString()` on an id value. -/
def TableId.toStr : TableId → String
| .str s => s
| .num n => toString n

/-- Record shape of the `TableData` interface: an optional `id` and an
arbitrary bag of further fields (field name, field value). -/
structure TableData where
  id : Option TableId
  fields : List (String × String)
deriving DecidableEq, Repr

/-! The loading / error / empty / populated rendering decision. -/

/-- The four caller-visible render outcomes of the Table component. -/
inductive RenderState
| loading
| errorState
| empty
| populated
deriving DecidableEq, Repr

/-- JavaScript truthiness of the `error : string | null` prop: `null` and
the empty string are falsy. -/
def errorTruthy : Option String → Bool
| some s => s ≠ ""
| none => false

/-- Render-state priority transcribed from the Table component body:
`if (loading) return <spinner>` first, then `if (error) return <error>`, then
the normal grid whose body shows `emptyMessage` when the row model has zero
rows. `rowCount` is `table.getRowModel().rows.length`. -/
def renderState (loading : Bool) (error : Option String) (rowCount : Nat) : RenderState :=
  if loading then .loading
  else if errorTruthy error then .errorState
  else if rowCount = 0 then .empty
  else .populated

/-! Row identity. -/

/-- Row-id resolver transcribed from the `useReactTable` options:
`getRowId: (row) => row.id?.toString() || Math.random().toString()`.
`fresh` stands for the `Math.random().toString()` value drawn at this call;
JS `||` yields the right operand when the left is falsy, i.e. when `id` is
absent or its string form is `""`. -/
def getRowId (fresh : String) (id : Option TableId) : String :=
  match id with
  | some v => if v.toStr = "" then fresh else v.toStr
  | none => fresh

/-- Render key of a row: `getRowId` applied to the record's `id`; the other
fields never enter. -/
def rowKey (fresh : String) (r : TableData) : String :=
  getRowId fresh r.id

/-! Rendered output, for the determinism claim. One rendered row is its
render key (used as the `key` of the `<tr>`) together with its cell values. -/

/-- One rendered row: the `<tr>` key and the displayed cell values. -/
structure RenderedRow where
  key : String
  cells : List String
deriving DecidableEq, Repr

/-- The rendered output of the component: one of the three short-circuit
views, or the grid body. -/
inductive RenderOutput
| loadingView
| errorView (msg : String)
| emptyView (msg : String)
| body (rows : List RenderedRow)
deriving DecidableEq, Repr

/-- One render of the table at fixed internal state: `rows` is the row model
after sort / filter / pagination (all deterministic given that state), and
`entropy i` is the `Math.random().toString()` value the runtime would hand
the row-id resolver for the row at position `i` of this render. -/
def renderTable (loading : Bool) (error : Option String) (emptyMessage : String)
    (rows : List TableData) (entropy : Nat → String) : RenderOutput :=
  match renderState loading error rows.length with
  | .loading => .loadingView
  | .errorState => .errorView (error.getD "")
  | .empty => .emptyView emptyMessage
  | .populated => .body (rows.enum.map (fun p => ⟨rowKey (entropy p.1) p.2, p.2.fields.map Prod.snd⟩))

/-! Column descriptors and sorting configuration. -/

/-- Column cell kind, from `TableColumn.type?: 'default' | 'checkbox'`. -/
inductive ColumnType
| default
| checkbox
deriving DecidableEq, Repr

/-- The parts of the `TableColumn` interface the claims depend on. Optional
TS fields become `Option`s (`none` is the absent field). -/
structure TableColumn where
  key : String
  sortable : Option Bool
  filterable : Option Bool
  type : Option ColumnType
deriving DecidableEq, Repr

/-- Per-column sorting flag, from the `tableColumns` mapping:
`enableSorting: col.sortable !== false && enableSorting` — absent `sortable`
defaults to sortable, and the global `enableSorting` prop gates everything. -/
def colEnableSorting (col : TableColumn) (enableSorting : Bool) : Bool :=
  col.sortable != some false && enableSorting

/-- One entry of the tanstack `SortingState`: the column id and whether the
direction is descending. -/
structure ColumnSort where
  id : String
  desc : Bool
deriving DecidableEq, Repr

/-- Modelled from the spec: the sort-toggle transition run by
`header.column.getToggleSortingHandler()` — implemented inside
`@tanstack/react-table`, which is not part of this repository's sources.
Spec §3: clicking a sortable header cycles unsorted → ascending →
descending → unsorted, scoped to that column; selecting a different column
resets any other column's sort (to ascending on the new column); the click
is a no-op when the column cannot sort. -/
def toggleSorting (canSort : Bool) (colId : String) (s : Option ColumnSort) : Option ColumnSort :=
  if !canSort then s
  else
    match s with
    | some e =>
      if e.id = colId then
        if e.desc then none else some ⟨colId, true⟩
      else some ⟨colId, false⟩
    | none => some ⟨colId, false⟩

/-- A click on the header of `col`: the handler toggles sorting on the
column whose id is `String(col.key)`, gated by the per-column flag computed
in `tableColumns`. -/
def clickHeader (col : TableColumn) (enableSorting : Bool)
    (s : Option ColumnSort) : Option ColumnSort :=
  toggleSorting (colEnableSorting col enableSorting) col.key s

/-! Cell-level click isolation. A DOM click event runs the handlers from the
event target outward (bubbling); a handler that calls `stopPropagation`
prevents every later (outer) handler from running. The handlers below are
transcribed from the JSX of the Table component; `ρ` is the record type and
a handler's `rowClickArg` is the argument it passes to the caller's
`onRowClick`, if it invokes it. -/

/-- One click handler on the bubbling path. -/
structure ClickHandler (ρ : Type) where
  stops : Bool
  rowClickArg : Option ρ

/-- Runs the handlers of a bubbling path in order, innermost first, and
returns the argument `onRowClick` was invoked with, if it was. -/
def bubbleRowClick {ρ : Type} : List (ClickHandler ρ) → Option ρ
| [] => none
| h :: rest => h.rowClickArg <|> (if h.stops then none else bubbleRowClick rest)

/-- Handler of the `<input type="checkbox">`: `onClick` calls
`e.stopPropagation()` and nothing else. -/
def checkboxInputClick (ρ : Type) : ClickHandler ρ := ⟨true, none⟩

/-- Handler of the `<div>` wrapping the checkbox: `onClick` calls
`e.stopPropagation()` and nothing else. -/
def checkboxWrapperClick (ρ : Type) : ClickHandler ρ := ⟨true, none⟩

/-- Handler of the `<td>`: `onClick` calls `e.stopPropagation()` exactly when
the cell belongs to a checkbox-type column, and never invokes `onRowClick`. -/
def tdClick (ρ : Type) (isCheckboxCell : Bool) : ClickHandler ρ := ⟨isCheckboxCell, none⟩

/-- Handler of the `<tr>`: `onClick={() => onRowClick?.(row.original)}` — it
does not stop propagation and invokes `onRowClick` with the row's record. -/
def trClick {ρ : Type} (r : ρ) : ClickHandler ρ := ⟨false, some r⟩

/-- Places inside a rendered cell a click can land on. In a checkbox-type
cell the checkbox input and its wrapper exist; in a default cell only the
cell content does. -/
inductive ClickTarget
| checkboxInput
| checkboxWrapper
| cellContent
deriving DecidableEq, Repr

/-- The bubbling path for a click landing on `t` inside a cell of a column of
type `colType`, in the row whose record is `r`. A default-type cell's
content `<div>` registers no click handler, so every target there starts at
the `<td>`. -/
def clickPath (ρ : Type) (colType : ColumnType) (t : ClickTarget) (r : ρ) :
    List (ClickHandler ρ) :=
  match colType, t with
  | .checkbox, .checkboxInput =>
    [checkboxInputClick ρ, checkboxWrapperClick ρ, tdClick ρ true, trClick r]
  | .checkbox, .checkboxWrapper =>
    [checkboxWrapperClick ρ, tdClick ρ true, trClick r]
  | .checkbox, .cellContent =>
    [tdClick ρ true, trClick r]
  | .default, _ =>
    [tdClick ρ false, trClick r]

/-- Outcome of a click: the argument `onRowClick` received, or `none` when it
was never invoked. -/
def rowClickOutcome (ρ : Type) (colType : ColumnType) (t : ClickTarget) (r : ρ) : Option ρ :=
  bubbleRowClick (clickPath ρ colType t r)

/-- Outcome of the `change` event fired by toggling the checkbox itself: the
input's `onChange` calls `e.stopPropagation()`, `e.preventDefault()` and then
`checkboxProps.onChange?.(row.original, e.target.checked)`; no ancestor
registers a change handler, so the pair below is the only callback invocation
and `onRowClick` is never reached. Returns (argument to
`checkboxProps.onChange`, whether `onRowClick` was invoked). -/
def checkboxChangeOutcome (ρ : Type) (r : ρ) (checked : Bool) : (ρ × Bool) × Bool :=
  ((r, checked), false)

/-! Sorting of the row model. Modelled from the spec, since the sorted row
model is computed by `@tanstack/react-table`'s `getSortedRowModel()`, which is
not part of this repository's sources. Spec §4.1: comparison is applied to
the accessed value of the active sort column; sorting is stable — records
that compare equal retain their relative natural (insertion) order. Rows are
identified by their natural position `0, …, n-1`; `k i` is the accessed sort
key of the row at natural position `i` (keys are embedded as integers, which
carries every total comparison the claims quantify over). A stable
single-key sort is exactly a sort by the strict lexicographic order (key
first, natural position second), which the relations below express. -/

/-- Ascending stable-sort order on natural positions: smaller key first,
ties in natural-position order. -/
def ascLe (k : Nat → Int) (i j : Nat) : Prop :=
  k i < k j ∨ (k i = k j ∧ i ≤ j)

instance (k : Nat → Int) : DecidableRel (ascLe k) := fun i j => by
  unfold ascLe; infer_instance

/-- Key as seen by the active direction: descending order compares negated
keys (ties still resolve by natural position, in both directions — that is
what stability means). -/
def signedKey (desc : Bool) (k : Nat → Int) : Nat → Int :=
  if desc then (fun i => -(k i)) else k

/-- The order the sorted row model is sorted by, for direction `desc`. -/
def sortLe (desc : Bool) (k : Nat → Int) : Nat → Nat → Prop :=
  ascLe (signedKey desc k)

instance (desc : Bool) (k : Nat → Int) : DecidableRel (sortLe desc k) :=
  fun i j => inferInstanceAs (Decidable (ascLe (signedKey desc k) i j))

/-- Modelled from the spec: the sorted row model — the permutation of the
natural positions `0, …, n-1` produced by the stable sort on the accessed
keys, ascending when `desc = false`, descending when `desc = true`. -/
def sortedRowModel (desc : Bool) (k : Nat → Int) (n : Nat) : List Nat :=
  List.insertionSort (sortLe desc k) (List.range n)

instance (k : Nat → Int) : IsTotal Nat (ascLe k) where
  total i j := by
    unfold ascLe
    rcases lt_trichotomy (k i) (k j) with h | h | h
    · exact Or.inl (Or.inl h)
    · rcases Nat.le_total i j with hij | hij
      · exact Or.inl (Or.inr ⟨h, hij⟩)
      · exact Or.inr (Or.inr ⟨h.symm, hij⟩)
    · exact Or.inr (Or.inl h)

instance (k : Nat → Int) : IsTrans Nat (ascLe k) where
  trans i j l hij hjl := by
    unfold ascLe at *
    rcases hij with h1 | ⟨h1, h1n⟩ <;> rcases hjl with h2 | ⟨h2, h2n⟩
    · exact Or.inl (h1.trans h2)
    · exact Or.inl (h2 ▸ h1)
    · exact Or.inl (h1 ▸ h2)
    · exact Or.inr ⟨h1.trans h2, h1n.trans h2n⟩

instance (k : Nat → Int) : IsAntisymm Nat (ascLe k) where
  antisymm i j hij hji := by
    unfold ascLe at *
    rcases hij with h1 | ⟨h1, h1n⟩ <;> rcases hji with h2 | ⟨h2, h2n⟩
    · exact absurd (h1.trans h2) (lt_irrefl _)
    · exact absurd h1 (h2 ▸ lt_irrefl _)
    · exact absurd h2 (h1 ▸ lt_irrefl _)
    · exact Nat.le_antisymm h1n h2n

instance (desc : Bool) (k : Nat → Int) : IsTotal Nat (sortLe desc k) :=
  inferInstanceAs (IsTotal Nat (ascLe (signedKey desc k)))

instance (desc : Bool) (k : Nat → Int) : IsTrans Nat (sortLe desc k) :=
  inferInstanceAs (IsTrans Nat (ascLe (signedKey desc k)))

instance (desc : Bool) (k : Nat → Int) : IsAntisymm Nat (sortLe desc k) :=
  inferInstanceAs (IsAntisymm Nat (ascLe (signedKey desc k)))

/-! Pagination and the table-owned state. The pagination transitions run by
`table.nextPage()`, `table.previousPage()` and `table.setPageSize(...)` live
in `@tanstack/react-table`, not in this repository's sources; they are
modelled from the spec below. The initial state and the wiring (which
transition each control invokes, which button is disabled when) are from the
Table component's JSX. -/

/-- Total pages, spec §4.1: `total pages = ceil(filteredCount / pageSize)`,
written with natural-number arithmetic (`pageSize > 0` throughout). -/
def pageCount (n pageSize : Nat) : Nat :=
  (n + pageSize - 1) / pageSize

/-- The state the Table component owns: the row count after filtering, the
sorting state, the column filters, and the pagination pair. -/
structure TableState where
  n : Nat
  sorting : Option ColumnSort
  filters : List (String × String)
  pageIndex : Nat
  pageSize : Nat
deriving DecidableEq, Repr

/-- Initial state, from the component's `useState` calls: empty sorting and
filter state, `pageIndex: 0`, `pageSize: pageSize` (the prop), over `n`
records. -/
def initTableState (n pageSize : Nat) : TableState :=
  ⟨n, none, [], 0, pageSize⟩

/-- Whether the Previous button is enabled: `table.getCanPreviousPage()` is
true away from page 0 (spec §4.1: page 0 disables Previous). -/
def canPreviousPage (s : TableState) : Bool :=
  s.pageIndex > 0

/-- Whether the Next button is enabled: `table.getCanNextPage()` is true
strictly before the last page (spec §4.1: the last page disables Next). -/
def canNextPage (s : TableState) : Bool :=
  s.pageIndex + 1 < pageCount s.n s.pageSize

/-- The page sizes the page-size `<select>` offers: `[5, 10, 20, 50]`. -/
def pageSizeOptions : List Nat := [5, 10, 20, 50]

/-- The user-driven table operations: a header click, a filter edit (carrying
the resulting filtered row count), the two pagination buttons, the page-size
selector, and a swap of the `data` prop (carrying the new row count). -/
inductive TableOp
| sortClick (canSort : Bool) (colId : String)
| setFilter (filters : List (String × String)) (m : Nat)
| nextPage
| previousPage
| selectPageSize (m : Nat)
| setData (m : Nat)

/-- Modelled from the spec: one synchronous state transition per operation.
Spec §3: sort / filter / pagination state is owned by the table and reset
only on explicit caller action; the page index is clamped to a valid range
whenever data length changes; spec §4.1: changing `pageSize` via the
selector resets to page 0; the navigation buttons are inert when disabled.
Swapping in a new record list preserves the sort / filter / page settings
and merely re-applies them. -/
def stepTable (op : TableOp) (s : TableState) : TableState :=
  match op with
  | .sortClick canSort colId =>
    { s with sorting := toggleSorting canSort colId s.sorting }
  | .setFilter f m =>
    { s with filters := f, n := m,
             pageIndex := min s.pageIndex (pageCount m s.pageSize - 1) }
  | .nextPage =>
    if canNextPage s then { s with pageIndex := s.pageIndex + 1 } else s
  | .previousPage =>
    if canPreviousPage s then { s with pageIndex := s.pageIndex - 1 } else s
  | .selectPageSize m =>
    if m ∈ pageSizeOptions then { s with pageSize := m, pageIndex := 0 } else s
  | .setData m =>
    { s with n := m, pageIndex := min s.pageIndex (pageCount m s.pageSize - 1) }

/-- Runs a sequence of operations from a state, oldest first. -/
def runTable (ops : List TableOp) (s : TableState) : TableState :=
  ops.foldl (fun s op => stepTable op s) s

/-- The pagination invariant: positive page size, and the page index within
`[0, pageCount - 1]` (which is `pageIndex = 0` when there are no rows, since
`pageCount 0 _ = 0`). -/
def pageIndexValid (s : TableState) : Prop :=
  0 < s.pageSize ∧ s.pageIndex ≤ pageCount s.n s.pageSize - 1

/-! Theorems. -/

theorem sortLe_false_iff (k : Nat → Int) (i j : Nat) :
    sortLe false k i j ↔ (k i < k j ∨ (k i = k j ∧ i ≤ j)) := by
  simp [sortLe, ascLe, signedKey]

theorem sortLe_true_iff (k : Nat → Int) (i j : Nat) :
    sortLe true k i j ↔ (k j < k i ∨ (k i = k j ∧ i ≤ j)) := by
  simp only [sortLe, ascLe, signedKey, if_pos]
  constructor
  · rintro (h | ⟨h, hn⟩)
    · exact Or.inl (by omega)
    · exact Or.inr ⟨by omega, hn⟩
  · rintro (h | ⟨h, hn⟩)
    · exact Or.inl (by omega)
    · exact Or.inr ⟨by omega, hn⟩

/-- C1 (counterexample): with `loading = true` and a non-null error string
both supplied, the component renders the loading state, not the error state —
the body checks `if (loading)` before `if (error)`. -/
theorem renderState_loading_first :
    renderState true (some "boom") 5 = RenderState.loading ∧
    renderState true (some "boom") 5 ≠ RenderState.errorState := by
  decide

/-- C1 (amended): the render priority is loading, then truthy (non-empty)
error string, then empty, then populated — loading takes precedence over
error, which takes precedence over empty and populated rendering. -/
theorem renderState_priority (b : Bool) (e : Option String) (n : Nat) :
    (b = true → renderState b e n = RenderState.loading) ∧
    (b = false → errorTruthy e = true → renderState b e n = RenderState.errorState) ∧
    (b = false → errorTruthy e = false → n = 0 → renderState b e n = RenderState.empty) ∧
    (b = false → errorTruthy e = false → 0 < n → renderState b e n = RenderState.populated) := by
  refine ⟨fun hb => ?_, fun hb he => ?_, fun hb he hn => ?_, fun hb he hn => ?_⟩
  · subst hb; simp [renderState]
  · subst hb; simp [renderState, he]
  · subst hb; simp [renderState, he, hn]
  · subst hb; simp [renderState, he]; omega

/-- Witness for C1's amended theorem at concrete inputs. -/
theorem renderState_priority_witness :
    renderState true (some "boom") 5 = RenderState.loading ∧
    renderState false (some "boom") 5 = RenderState.errorState :=
  ⟨(renderState_priority true (some "boom") 5).1 rfl,
   (renderState_priority false (some "boom") 5).2.1 rfl (by decide)⟩

/-- C2: when the per-column sorting flag of `tableColumns` is on, header
clicks cycle unsorted → ascending → descending → unsorted on that column,
and a click while another column is sorted restarts at ascending on the
clicked column; the click changes nothing when the column's `sortable` is
`false` or when global sorting is disabled. -/
theorem headerClick_cycle (col : TableColumn) (es : Bool) :
    (colEnableSorting col es = true →
      clickHeader col es none = some ⟨col.key, false⟩ ∧
      clickHeader col es (some ⟨col.key, false⟩) = some ⟨col.key, true⟩ ∧
      clickHeader col es (some ⟨col.key, true⟩) = none ∧
      ∀ o d, o ≠ col.key → clickHeader col es (some ⟨o, d⟩) = some ⟨col.key, false⟩) ∧
    (col.sortable = some false → ∀ s, clickHeader col es s = s) ∧
    (es = false → ∀ s, clickHeader col es s = s) := by
  refine ⟨fun h => ?_, fun h s => ?_, fun h s => ?_⟩
  · refine ⟨?_, ?_, ?_, fun o d ho => ?_⟩
    · simp [clickHeader, toggleSorting, h]
    · simp [clickHeader, toggleSorting, h]
    · simp [clickHeader, toggleSorting, h]
    · simp [clickHeader, toggleSorting, h, ho]
  · have hflag : colEnableSorting col es = false := by simp [colEnableSorting, h]
    simp [clickHeader, toggleSorting, hflag]
  · have hflag : colEnableSorting col es = false := by simp [colEnableSorting, h]
    simp [clickHeader, toggleSorting, hflag]

/-- Witness for C2 at a concrete sortable column. -/
theorem headerClick_cycle_witness :
    colEnableSorting ⟨"price", none, none, none⟩ true = true ∧
    clickHeader ⟨"price", none, none, none⟩ true none = some ⟨"price", false⟩ :=
  ⟨by decide, ((headerClick_cycle ⟨"price", none, none, none⟩ true).1 (by decide)).1⟩

/-- C4: a click anywhere inside a checkbox-type cell — the checkbox input,
its wrapper, or the cell body — never invokes `onRowClick`, because a
handler on the bubbling path stops propagation before the row handler runs;
a click on a default-type cell reaches the row handler, which invokes
`onRowClick` with that row's record; toggling the checkbox fires a change
event whose only callback is `checkboxProps.onChange` with the record and
the new checked value. -/
theorem checkboxCell_isolation (ρ : Type) (r : ρ) :
    (∀ t, rowClickOutcome ρ ColumnType.checkbox t r = none) ∧
    rowClickOutcome ρ ColumnType.default ClickTarget.cellContent r = some r ∧
    (∀ checked, checkboxChangeOutcome ρ r checked = ((r, checked), false)) := by
  refine ⟨fun t => ?_, rfl, fun _ => rfl⟩
  cases t <;> rfl

/-- C8 (counterexample): a record carrying the empty-string id is not keyed
by its id string — the falsy check diverts it to the fallback key. -/
theorem rowKey_emptyId_counterexample :
    rowKey "fallback7" ⟨some (TableId.str ""), []⟩ ≠ (TableId.str "").toStr ∧
    rowKey "fallback7" ⟨some (TableId.str ""), []⟩ = "fallback7" := by
  decide

/-- C8 (amended): for every record whose `id` stringifies to a non-empty
string, the render key is exactly that string — hence identical across two
renders with different field values and different fallback draws; a record
with no `id` gets the per-render fallback key and so loses stable identity.
Records whose `id` stringifies to `""` are the one exception: they are keyed
like id-less records (see the counterexample). -/
theorem rowKey_stable (r1 r2 : TableData) (v : TableId) (f1 f2 : String)
    (h1 : r1.id = some v) (h2 : r2.id = some v) (hv : v.toStr ≠ "") :
    rowKey f1 r1 = v.toStr ∧ rowKey f1 r1 = rowKey f2 r2 ∧
    (∀ (r : TableData) (f : String), r.id = none → rowKey f r = f) := by
  refine ⟨?_, ?_, fun r f hr => ?_⟩
  · simp [rowKey, getRowId, h1, hv]
  · simp [rowKey, getRowId, h1, h2, hv]
  · simp [rowKey, getRowId, hr]

/-- Witness for C8's amended theorem: same id, different field values and
different fallback draws, identical keys. -/
theorem rowKey_stable_witness :
    rowKey "fa" ⟨some (TableId.str "a"), [("x", "1")]⟩ = (TableId.str "a").toStr ∧
    rowKey "fa" ⟨some (TableId.str "a"), [("x", "1")]⟩ =
      rowKey "fb" ⟨some (TableId.str "a"), [("x", "2")]⟩ ∧
    (∀ (r : TableData) (f : String), r.id = none → rowKey f r = f) :=
  rowKey_stable ⟨some (TableId.str "a"), [("x", "1")]⟩ ⟨some (TableId.str "a"), [("x", "2")]⟩
    (TableId.str "a") "fa" "fb" rfl rfl (by decide)

/-- C9 (counterexample): two renders with identical inputs and identical
internal state differ when a record lacks an id, because the row key then
comes from the per-render `Math.random()` draw. -/
theorem renderTable_entropy_counterexample :
    renderTable false none "No data available" [⟨none, []⟩] (fun _ => "a") ≠
    renderTable false none "No data available" [⟨none, []⟩] (fun _ => "b") := by
  decide

/-- C9 (amended): the render is a pure function of its inputs and internal
state — independent of the `Math.random()` entropy — provided every record's
`id` stringifies to a non-empty string; rows without such an id take
entropy-dependent keys (see the counterexample). -/
theorem renderTable_deterministic (loading : Bool) (error : Option String) (msg : String)
    (rows : List TableData) (e1 e2 : Nat → String)
    (h : ∀ r ∈ rows, ∃ v, r.id = some v ∧ v.toStr ≠ "") :
    renderTable loading error msg rows e1 = renderTable loading error msg rows e2 := by
  unfold renderTable
  rcases renderState loading error rows.length with _ | _ | _ | _ <;> simp
  intro a b hp
  obtain ⟨v, hv, hne⟩ := h b (List.snd_mem_of_mem_enum hp)
  simp [rowKey, getRowId, hv, hne]

/-- Witness for C9's amended theorem at a one-row dataset with a stable id
and two distinct entropy sources. -/
theorem renderTable_deterministic_witness :
    renderTable false none "No data available" [⟨some (TableId.str "a"), []⟩] (fun _ => "x") =
    renderTable false none "No data available" [⟨some (TableId.str "a"), []⟩] (fun _ => "y") :=
  renderTable_deterministic false none "No data available" _ _ _ (by
    intro r hr
    rw [List.mem_singleton] at hr
    subst hr
    exact ⟨TableId.str "a", rfl, by decide⟩)

/-- C10: a record whose `id` is the empty string is treated exactly like a
record with no `id` — the falsy check sends both to the fallback key — while
the numeric id `0` stringifies to `"0"` and keeps a stable key. -/
theorem emptyStringId_fallback (fresh : String) (fields : List (String × String)) :
    rowKey fresh ⟨some (TableId.str ""), fields⟩ = rowKey fresh ⟨none, fields⟩ ∧
    rowKey fresh ⟨some (TableId.str ""), fields⟩ = fresh ∧
    rowKey fresh ⟨some (TableId.num 0), fields⟩ = "0" := by
  refine ⟨rfl, rfl, rfl⟩

/-- C3 (counterexample): two records with equal sort keys stay in natural
order under both directions (stability), so the descending order is not the
reverse of the ascending one. -/
theorem sortedRowModel_tie_counterexample :
    sortedRowModel true (fun _ => 0) 2 ≠ (sortedRowModel false (fun _ => 0) 2).reverse := by
  decide

/-- C3 (amended): sorting is stable in both directions — rows whose accessed
keys compare equal keep their natural relative order — and when the accessed
keys are pairwise distinct the descending order is exactly the reverse of
the ascending order (with ties the two conjuncts of the original claim
contradict each other; see the counterexample). -/
theorem sort_stable_and_reverse (k : Nat → Int) (n : Nat) :
    (∀ desc, (sortedRowModel desc k n).Pairwise (fun i j => k i = k j → i ≤ j)) ∧
    ((∀ i j, i < j → j < n → k i ≠ k j) →
      sortedRowModel true k n = (sortedRowModel false k n).reverse) := by
  constructor
  · intro desc
    have hs : (sortedRowModel desc k n).Pairwise (sortLe desc k) :=
      List.sorted_insertionSort _ _
    refine hs.imp ?_
    intro i j hij heq
    cases desc
    · rcases (sortLe_false_iff k i j).mp hij with h | ⟨_, hn⟩
      · omega
      · exact hn
    · rcases (sortLe_true_iff k i j).mp hij with h | ⟨_, hn⟩
      · omega
      · exact hn
  · intro hinj
    have hperm : (sortedRowModel true k n).Perm ((sortedRowModel false k n).reverse) :=
      ((List.perm_insertionSort _ _).trans
        (List.perm_insertionSort (sortLe false k) (List.range n)).symm).trans
        (List.reverse_perm _).symm
    have hsortedDesc : List.Sorted (sortLe true k) (sortedRowModel true k n) :=
      List.sorted_insertionSort _ _
    have hne : (sortedRowModel false k n).Pairwise (fun i j => k i ≠ k j) := by
      have h0 : (List.range n).Pairwise (fun i j => k i ≠ k j) := by
        refine (List.pairwise_lt_range n).imp_of_mem ?_
        intro a b _ hb hab
        exact hinj a b hab (List.mem_range.mp hb)
      exact ((List.perm_insertionSort (sortLe false k) (List.range n)).pairwise_iff
        (fun hxy => hxy.symm)).mpr h0
    have hsortedRev : List.Sorted (sortLe true k) ((sortedRowModel false k n).reverse) := by
      have hs1 : (sortedRowModel false k n).Pairwise (sortLe false k) :=
        List.sorted_insertionSort _ _
      have hflip : (sortedRowModel false k n).Pairwise (fun i j => sortLe true k j i) := by
        refine (hs1.and hne).imp ?_
        intro i j hij
        obtain ⟨hle, hnej⟩ := hij
        rcases (sortLe_false_iff k i j).mp hle with h | ⟨h, _⟩
        · exact (sortLe_true_iff k j i).mpr (Or.inl h)
        · exact absurd h hnej
      exact List.pairwise_reverse.mpr hflip
    exact List.eq_of_perm_of_sorted hperm hsortedDesc hsortedRev

/-- Witness for C3's amended theorem: two rows with distinct keys, the
descending order reverses the ascending one. -/
theorem sort_stable_and_reverse_witness :
    sortedRowModel true (fun i => if i = 0 then (5 : Int) else 3) 2 =
      (sortedRowModel false (fun i => if i = 0 then (5 : Int) else 3) 2).reverse :=
  (sort_stable_and_reverse (fun i => if i = 0 then (5 : Int) else 3) 2).2 (by
    intro i j h1 h2
    have hi : i = 0 := by omega
    have hj : j = 1 := by omega
    subst hi; subst hj
    decide)

theorem pageCount_zero (ps : Nat) (h : 0 < ps) : pageCount 0 ps = 0 := by
  unfold pageCount
  apply Nat.div_eq_of_lt
  omega

theorem stepTable_preserves_valid (op : TableOp) (s : TableState)
    (h : pageIndexValid s) : pageIndexValid (stepTable op s) := by
  obtain ⟨hps, hidx⟩ := h
  cases op with
  | sortClick canSort colId => exact ⟨hps, hidx⟩
  | setFilter f m => exact ⟨hps, Nat.min_le_right _ _⟩
  | nextPage =>
    rcases hcn : canNextPage s with _ | _
    · simpa [stepTable, hcn] using ⟨hps, hidx⟩
    · have hlt : s.pageIndex + 1 < pageCount s.n s.pageSize := by
        simpa [canNextPage] using hcn
      refine ⟨?_, ?_⟩ <;> simp [stepTable, hcn] <;> omega
  | previousPage =>
    rcases hcp : canPreviousPage s with _ | _
    · simpa [stepTable, hcp] using ⟨hps, hidx⟩
    · refine ⟨?_, ?_⟩ <;> simp [stepTable, hcp] <;> omega
  | selectPageSize m =>
    rcases hm : decide (m ∈ pageSizeOptions) with _ | _
    · have hm' : ¬ m ∈ pageSizeOptions := of_decide_eq_false hm
      simpa [stepTable, hm'] using ⟨hps, hidx⟩
    · have hm' : m ∈ pageSizeOptions := of_decide_eq_true hm
      have hmpos : 0 < m := by
        simp [pageSizeOptions] at hm'
        omega
      refine ⟨?_, ?_⟩
      · simp [stepTable, hm']
        omega
      · simp [stepTable, hm']
  | setData m => exact ⟨hps, Nat.min_le_right _ _⟩

/-- C5: starting from the component's initial state over any dataset, every
sequence of table operations keeps the page index within
`[0, pageCount - 1]` — in particular it is 0 when there are no rows — and
the JSX disables the Previous button on page 0 and the Next button on the
last page. -/
theorem pagination_invariant (ops : List TableOp) (n ps : Nat) (h : 0 < ps) :
    (runTable ops (initTableState n ps)).pageIndex ≤
      pageCount (runTable ops (initTableState n ps)).n
        (runTable ops (initTableState n ps)).pageSize - 1 ∧
    ((runTable ops (initTableState n ps)).n = 0 →
      (runTable ops (initTableState n ps)).pageIndex = 0) ∧
    ((runTable ops (initTableState n ps)).pageIndex = 0 →
      canPreviousPage (runTable ops (initTableState n ps)) = false) ∧
    ((runTable ops (initTableState n ps)).pageIndex + 1 =
        pageCount (runTable ops (initTableState n ps)).n
          (runTable ops (initTableState n ps)).pageSize →
      canNextPage (runTable ops (initTableState n ps)) = false) := by
  have hrun : ∀ (l : List TableOp) (s : TableState),
      pageIndexValid s → pageIndexValid (runTable l s) := by
    intro l
    induction l with
    | nil => intro s hs; exact hs
    | cons op rest ih =>
      intro s hs
      exact ih _ (stepTable_preserves_valid op s hs)
  have hv : pageIndexValid (runTable ops (initTableState n ps)) :=
    hrun ops _ ⟨h, Nat.zero_le _⟩
  obtain ⟨hps, hidx⟩ := hv
  refine ⟨hidx, ?_, ?_, ?_⟩
  · intro hn0
    have hc0 : pageCount (runTable ops (initTableState n ps)).n
        (runTable ops (initTableState n ps)).pageSize = 0 := by
      rw [hn0]
      exact pageCount_zero _ hps
    omega
  · intro h0
    simp [canPreviousPage, h0]
  · intro hlast
    simp [canNextPage]
    omega

/-- Witness for C5 at a concrete operation sequence. -/
theorem pagination_invariant_witness :
    0 < 2 ∧
    ((runTable [TableOp.nextPage, TableOp.setData 0] (initTableState 5 2)).pageIndex ≤
      pageCount (runTable [TableOp.nextPage, TableOp.setData 0] (initTableState 5 2)).n
        (runTable [TableOp.nextPage, TableOp.setData 0] (initTableState 5 2)).pageSize - 1 ∧
    ((runTable [TableOp.nextPage, TableOp.setData 0] (initTableState 5 2)).n = 0 →
      (runTable [TableOp.nextPage, TableOp.setData 0] (initTableState 5 2)).pageIndex = 0) ∧
    ((runTable [TableOp.nextPage, TableOp.setData 0] (initTableState 5 2)).pageIndex = 0 →
      canPreviousPage (runTable [TableOp.nextPage, TableOp.setData 0] (initTableState 5 2)) = false) ∧
    ((runTable [TableOp.nextPage, TableOp.setData 0] (initTableState 5 2)).pageIndex + 1 =
        pageCount (runTable [TableOp.nextPage, TableOp.setData 0] (initTableState 5 2)).n
          (runTable [TableOp.nextPage, TableOp.setData 0] (initTableState 5 2)).pageSize →
      canNextPage (runTable [TableOp.nextPage, TableOp.setData 0] (initTableState 5 2)) = false)) :=
  ⟨by decide, pagination_invariant [TableOp.nextPage, TableOp.setData 0] 5 2 (by decide)⟩

/-- C6: selecting a new page size through the page-size selector resets the
page index to 0 and installs the new size in the same transition; the total
page count recomputed over the unchanged row count is exactly the ceiling of
filteredCount / newPageSize — the least `p` with `newSize * p ≥ n`. -/
theorem selectPageSize_resets (s : TableState) (m : Nat) (hm : m ∈ pageSizeOptions) :
    (stepTable (TableOp.selectPageSize m) s).pageIndex = 0 ∧
    (stepTable (TableOp.selectPageSize m) s).pageSize = m ∧
    (stepTable (TableOp.selectPageSize m) s).n = s.n ∧
    s.n ≤ m * pageCount s.n m ∧
    (∀ p, s.n ≤ m * p → pageCount s.n m ≤ p) := by
  have hm4 : m = 5 ∨ m = 10 ∨ m = 20 ∨ m = 50 := by
    simpa [pageSizeOptions] using hm
  refine ⟨?_, ?_, ?_, ?_, ?_⟩
  · simp [stepTable, hm]
  · simp [stepTable, hm]
  · simp [stepTable, hm]
  · rcases hm4 with rfl | rfl | rfl | rfl <;> (unfold pageCount; omega)
  · intro p hp
    rcases hm4 with rfl | rfl | rfl | rfl <;> (unfold pageCount; omega)

/-- Witness for C6 at a concrete state and page size. -/
theorem selectPageSize_resets_witness :
    (stepTable (TableOp.selectPageSize 5) ⟨23, none, [], 3, 10⟩).pageIndex = 0 ∧
    (stepTable (TableOp.selectPageSize 5) ⟨23, none, [], 3, 10⟩).pageSize = 5 ∧
    (stepTable (TableOp.selectPageSize 5) ⟨23, none, [], 3, 10⟩).n = 23 ∧
    (23 : Nat) ≤ 5 * pageCount 23 5 ∧
    (∀ p, (23 : Nat) ≤ 5 * p → pageCount 23 5 ≤ p) :=
  selectPageSize_resets ⟨23, none, [], 3, 10⟩ 5 (by decide)

/-- C7: swapping in a new record list preserves the sorting state, the
filter state and the page size, and clamps the page index to the nearest
valid page; concretely, with pageSize 1 and 3 records while on page index 2,
dropping to 2 records moves the page index to 1. -/
theorem setData_frame (s : TableState) (m : Nat) :
    (stepTable (TableOp.setData m) s).sorting = s.sorting ∧
    (stepTable (TableOp.setData m) s).filters = s.filters ∧
    (stepTable (TableOp.setData m) s).pageSize = s.pageSize ∧
    (stepTable (TableOp.setData m) s).n = m ∧
    (stepTable (TableOp.setData m) s).pageIndex =
      min s.pageIndex (pageCount m s.pageSize - 1) ∧
    (stepTable (TableOp.setData 2) ⟨3, none, [], 2, 1⟩).pageIndex = 1 := by
  exact ⟨rfl, rfl, rfl, rfl, rfl, by decide⟩

end Crosspost
